import Mathlib

/-!
Verification of the version-resolution behaviour of `testrepository/__init__.py`.

The package initializer queries a packaging metadata provider
(`pbr.version.VersionInfo(name).semantic_version()`) for the installed
distribution's semantic version and exposes two module-level values:
`version_info` (a 5-tuple `(major, minor, micro, releaselevel, serial)`)
and `__version__` (a human-readable release string).

The `pbr.version` library is an external dependency whose code is not part
of this repository, so its resolution machinery is modelled from the spec
(definitions so marked); the module initializer itself is translated
directly from `src/testrepository/__init__.py`.
-/

/-- Release maturity tags.  The spec's data model enumerates exactly five:
`alpha`, `beta`, `candidate`, `final`, and `dev` (unreleased, in development). -/
inductive ReleaseLevel
  | alpha
  | beta
  | candidate
  | final
  | dev
deriving DecidableEq, Repr

/-- The tag string of a release level, as it appears in the version tuple
(same format as Python's `sys.version_info` release level field). -/
def ReleaseLevel.tag : ReleaseLevel → String
  | .alpha => "alpha"
  | .beta => "beta"
  | .candidate => "candidate"
  | .final => "final"
  | .dev => "dev"

/-- Numeric value of a decimal digit character. -/
def digitVal (c : Char) : Nat := c.toNat - '0'.toNat

/-- Value of a big-endian list of decimal digit characters. -/
def digitsVal (l : List Char) : Nat := l.foldl (fun a c => 10 * a + digitVal c) 0

/-- A well-formed decimal numeral: non-empty, all digits, no leading zero
(except the numeral `0` itself). -/
def isNumChunk (l : List Char) : Bool :=
  !l.isEmpty && l.all Char.isDigit && (l == ['0'] || !(l.head? == some '0'))

/-- Parse a decimal numeral component of a version string. -/
def parseNum? (l : List Char) : Option Nat :=
  if isNumChunk l then some (digitsVal l) else none

/-- Split a character list into the chunks between `'.'` separators. -/
def splitDots : List Char → List (List Char)
  | [] => [[]]
  | c :: cs =>
    if c = '.' then [] :: splitDots cs
    else
      match splitDots cs with
      | chunk :: rest => (c :: chunk) :: rest
      | [] => [[c]]

/-- Strip a literal tag from the front of a chunk, returning the remainder. -/
def stripTag : List Char → List Char → Option (List Char)
  | [], rest => some rest
  | _ :: _, [] => none
  | t :: ts, c :: cs => if c = t then stripTag ts cs else none

/-- The release-level markers that may suffix a version string, with the
level each denotes.  `final` has no marker: it is the absence of a suffix. -/
def suffixTags : List (List Char × ReleaseLevel) :=
  [("alpha".toList, .alpha), ("beta".toList, .beta),
   ("candidate".toList, .candidate), ("dev".toList, .dev)]

/-- Try each marker in turn against a suffix chunk such as `dev3` or `beta2`:
the marker must head the chunk and the remainder must be a numeral (the
serial). -/
def parseSuffixAux : List (List Char × ReleaseLevel) → List Char → Option (ReleaseLevel × Nat)
  | [], _ => none
  | (t, lvl) :: rest, l =>
    match stripTag t l with
    | some serialChars =>
      match parseNum? serialChars with
      | some n => some (lvl, n)
      | none => parseSuffixAux rest l
    | none => parseSuffixAux rest l

/-- Parse a release-level suffix chunk into its level and serial. -/
def parseSuffix? (l : List Char) : Option (ReleaseLevel × Nat) :=
  parseSuffixAux suffixTags l

/-- Modelled from the spec: the semantic-version value produced by
`pbr.version` (code not in this repository).  Carries the five components of
the data model's VersionInfo entity together with the stored version text
from which they were parsed. -/
structure SemanticVersion where
  major : Nat
  minor : Nat
  micro : Nat
  releaseLevel : ReleaseLevel
  serial : Nat
  text : List Char
deriving DecidableEq, Repr

/-- Modelled from the spec: `SemanticVersion.version_tuple()`, the structured
5-tuple `(major, minor, micro, releaselevel, serial)` in the format of
Python's `sys.version_info`. -/
def SemanticVersion.version_tuple (v : SemanticVersion) : Nat × Nat × Nat × String × Nat :=
  (v.major, v.minor, v.micro, v.releaseLevel.tag, v.serial)

/-- Modelled from the spec: `SemanticVersion.release_string()`, the
human-readable rendering of the version.  For every version string of the
spec's grammar (canonical numerals, optional suffix) the rendering coincides
with the stored version text, which the model records in `text`. -/
def SemanticVersion.release_string (v : SemanticVersion) : String :=
  ⟨v.text⟩

/-- Modelled from the spec: parse the chunks of a version string.
`X.Y.Z` is a final release with serial 0; `X.Y.Z.<marker><N>` carries an
explicit release level and serial; anything else is malformed. -/
def parseChunks? : List (List Char) → Option (Nat × Nat × Nat × ReleaseLevel × Nat)
  | [a, b, c] =>
    match parseNum? a, parseNum? b, parseNum? c with
    | some x, some y, some z => some (x, y, z, .final, 0)
    | _, _, _ => none
  | [a, b, c, d] =>
    match parseNum? a, parseNum? b, parseNum? c, parseSuffix? d with
    | some x, some y, some z, some (lvl, n) => some (x, y, z, lvl, n)
    | _, _, _, _ => none
  | _ => none

/-- Modelled from the spec: parse a stored version string into a semantic
version, recording the text it was parsed from. -/
def parseSemVer? (s : List Char) : Option SemanticVersion :=
  (parseChunks? (splitDots s)).map fun t =>
    ⟨t.1, t.2.1, t.2.2.1, t.2.2.2.1, t.2.2.2.2, s⟩

/-- The host environment's installed-package metadata index: a registry
mapping installed distribution names to their declared version strings. -/
def MetadataIndex := List (String × String)

/-- Look a distribution name up in the metadata index. -/
def findVersion : MetadataIndex → String → Option String
  | [], _ => none
  | (k, v) :: rest, n => if k = n then some v else findVersion rest n

/-- The error taxonomy of version resolution: the named package is absent
from the install environment, or its stored version string does not conform
to the semantic-version grammar. -/
inductive VersionError
  | metadataNotFound
  | malformedVersion
deriving DecidableEq, Repr

/-- Modelled from the spec:
`pbr.version.VersionInfo(name).semantic_version()` (code not in this
repository) — query the metadata index for the named distribution and parse
its stored version string. -/
def pbrSemanticVersion (index : MetadataIndex) (name : String) :
    Except VersionError SemanticVersion :=
  match findVersion index name with
  | none => .error .metadataNotFound
  | some s =>
    match parseSemVer? s.toList with
    | none => .error .malformedVersion
    | some v => .ok v

/-- The spec's §4.1 operation
`resolve_version(package_name) -> (VersionTuple, ReleaseString)`. -/
def resolve_version (index : MetadataIndex) (name : String) :
    Except VersionError ((Nat × Nat × Nat × String × Nat) × String) :=
  match pbrSemanticVersion index name with
  | .error e => .error e
  | .ok v => .ok (v.version_tuple, v.release_string)

/-- The distribution name the module initializer passes to
`pbr.version.VersionInfo` in `src/testrepository/__init__.py` line 27. -/
def queriedPackage : String := "pbr_testpackage"

/-- The two module-level values bound by a successful initialization of
`testrepository/__init__.py`: `version_info` and `__version__`. -/
structure ModuleBindings where
  version_info : Nat × Nat × Nat × String × Nat
  version_string : String
deriving DecidableEq, Repr

/-- The module initializer of `src/testrepository/__init__.py`:
`_semantic_version = pbr.version.VersionInfo('pbr_testpackage').semantic_version()`,
then `version_info = _semantic_version.version_tuple()` and
`__version__ = _semantic_version.release_string()`. -/
def testrepositoryInit (index : MetadataIndex) : Except VersionError ModuleBindings :=
  match pbrSemanticVersion index queriedPackage with
  | .error e => .error e
  | .ok sv => .ok ⟨sv.version_tuple, sv.release_string⟩

instance {ε α : Type} [DecidableEq ε] [DecidableEq α] : DecidableEq (Except ε α)
  | .error e, .error f =>
    if h : e = f then .isTrue (by rw [h]) else .isFalse (by simp [h])
  | .error _, .ok _ => .isFalse (by simp)
  | .ok _, .error _ => .isFalse (by simp)
  | .ok a, .ok b =>
    if h : a = b then .isTrue (by rw [h]) else .isFalse (by simp [h])

example : testrepositoryInit [("pbr_testpackage", "1.0.0")] =
    .ok ⟨(1, 0, 0, "final", 0), "1.0.0"⟩ := by decide

example : testrepositoryInit [("pbr_testpackage", "2.3.1.beta2")] =
    .ok ⟨(2, 3, 1, "beta", 2), "2.3.1.beta2"⟩ := by decide

example : testrepositoryInit [("pbr_testpackage", "1.2.0.dev3")] =
    .ok ⟨(1, 2, 0, "dev", 3), "1.2.0.dev3"⟩ := by decide

example : testrepositoryInit [("testrepository", "1.0.0")] =
    .error .metadataNotFound := by decide

example : testrepositoryInit [("pbr_testpackage", "not-a-version")] =
    .error .malformedVersion := by decide

/-! ### Helper lemmas -/

theorem toList_mk (l : List Char) : (String.mk l).toList = l := rfl

theorem splitDots_no_dot (a : List Char) (h : '.' ∉ a) : splitDots a = [a] := by
  induction a with
  | nil => rfl
  | cons c cs ih =>
    have hc : ¬(c = '.') := fun he => h (he ▸ List.mem_cons_self c cs)
    have hcs : '.' ∉ cs := fun hm => h (List.mem_cons_of_mem _ hm)
    simp [splitDots, hc, ih hcs]

theorem splitDots_append (a r : List Char) (h : '.' ∉ a) :
    splitDots (a ++ ('.' :: r)) = a :: splitDots r := by
  induction a with
  | nil => simp [splitDots]
  | cons c cs ih =>
    have hc : ¬(c = '.') := fun he => h (he ▸ List.mem_cons_self c cs)
    have hcs : '.' ∉ cs := fun hm => h (List.mem_cons_of_mem _ hm)
    simp [splitDots, hc, ih hcs]

theorem isNumChunk_no_dot (a : List Char) (h : isNumChunk a = true) : '.' ∉ a := by
  intro hm
  have hall : a.all Char.isDigit = true := by
    simp only [isNumChunk, Bool.and_eq_true] at h
    exact h.1.2
  have hd := List.all_eq_true.mp hall '.' hm
  exact absurd hd (by decide)

theorem parseNum_of_isNumChunk (a : List Char) (h : isNumChunk a = true) :
    parseNum? a = some (digitsVal a) := by
  simp [parseNum?, h]

/-- Splitting a three-numeral version string on dots yields its chunks. -/
theorem splitDots_three (a b c : List Char)
    (ha : isNumChunk a = true) (hb : isNumChunk b = true) (hc : isNumChunk c = true) :
    splitDots (a ++ ('.' :: (b ++ ('.' :: c)))) = [a, b, c] := by
  rw [splitDots_append a _ (isNumChunk_no_dot a ha),
      splitDots_append b _ (isNumChunk_no_dot b hb),
      splitDots_no_dot c (isNumChunk_no_dot c hc)]

/-- C2: for every installed version string of the plain form `X.Y.Z` (three
decimal numerals separated by dots), version resolution returns the tuple
`(X, Y, Z, "final", 0)` and the release string `X.Y.Z`. -/
theorem resolve_version_plain (idx : MetadataIndex) (name : String) (a b c : List Char)
    (ha : isNumChunk a = true) (hb : isNumChunk b = true) (hc : isNumChunk c = true)
    (hfind : findVersion idx name = some ⟨a ++ ('.' :: (b ++ ('.' :: c)))⟩) :
    resolve_version idx name =
      .ok ((digitsVal a, digitsVal b, digitsVal c, "final", 0),
           ⟨a ++ ('.' :: (b ++ ('.' :: c)))⟩) := by
  simp [resolve_version, pbrSemanticVersion, hfind, toList_mk, parseSemVer?,
        splitDots_three a b c ha hb hc, parseChunks?,
        parseNum_of_isNumChunk _ ha, parseNum_of_isNumChunk _ hb, parseNum_of_isNumChunk _ hc,
        SemanticVersion.version_tuple, SemanticVersion.release_string, ReleaseLevel.tag]

/-- Witness for C2 at the concrete installed version `1.0.0`. -/
theorem resolve_version_plain_witness :
    resolve_version [("pbr_testpackage", "1.0.0")] "pbr_testpackage" =
      .ok ((1, 0, 0, "final", 0), "1.0.0") := by
  rw [resolve_version_plain [("pbr_testpackage", "1.0.0")] "pbr_testpackage"
        ['1'] ['0'] ['0'] (by decide) (by decide) (by decide) (by decide)]
  decide

theorem parseSuffix_dev (n : List Char) (hn : isNumChunk n = true) :
    parseSuffix? ('d' :: 'e' :: 'v' :: n) = some (.dev, digitsVal n) := by
  simp [parseSuffix?, suffixTags, parseSuffixAux, stripTag, parseNum_of_isNumChunk _ hn]

theorem no_dot_dev (n : List Char) (hn : isNumChunk n = true) :
    '.' ∉ ('d' :: 'e' :: 'v' :: n) := by
  intro hm
  simp only [List.mem_cons] at hm
  rcases hm with h | h | h | h
  · exact absurd h (by decide)
  · exact absurd h (by decide)
  · exact absurd h (by decide)
  · exact isNumChunk_no_dot n hn h

theorem splitDots_four (a b c d : List Char)
    (ha : isNumChunk a = true) (hb : isNumChunk b = true) (hc : isNumChunk c = true)
    (hd : '.' ∉ d) :
    splitDots (a ++ ('.' :: (b ++ ('.' :: (c ++ ('.' :: d)))))) = [a, b, c, d] := by
  rw [splitDots_append a _ (isNumChunk_no_dot a ha),
      splitDots_append b _ (isNumChunk_no_dot b hb),
      splitDots_append c _ (isNumChunk_no_dot c hc),
      splitDots_no_dot d hd]

/-- C3: for every installed version string of the development form
`X.Y.Z.devN`, version resolution returns the tuple `(X, Y, Z, "dev", N)`, and
the returned release string contains the `dev` marker immediately followed by
the serial `N`. -/
theorem resolve_version_dev (idx : MetadataIndex) (name : String) (a b c n : List Char)
    (ha : isNumChunk a = true) (hb : isNumChunk b = true) (hc : isNumChunk c = true)
    (hn : isNumChunk n = true)
    (hfind : findVersion idx name =
      some ⟨a ++ ('.' :: (b ++ ('.' :: (c ++ ('.' :: ('d' :: 'e' :: 'v' :: n))))))⟩) :
    resolve_version idx name =
      .ok ((digitsVal a, digitsVal b, digitsVal c, "dev", digitsVal n),
           ⟨a ++ ('.' :: (b ++ ('.' :: (c ++ ('.' :: ('d' :: 'e' :: 'v' :: n))))))⟩) ∧
    List.IsInfix ('d' :: 'e' :: 'v' :: n)
      (a ++ ('.' :: (b ++ ('.' :: (c ++ ('.' :: ('d' :: 'e' :: 'v' :: n))))))) := by
  constructor
  · simp [resolve_version, pbrSemanticVersion, hfind, toList_mk, parseSemVer?,
          splitDots_four a b c _ ha hb hc (no_dot_dev n hn), parseChunks?,
          parseNum_of_isNumChunk _ ha, parseNum_of_isNumChunk _ hb,
          parseNum_of_isNumChunk _ hc, parseSuffix_dev n hn,
          SemanticVersion.version_tuple, SemanticVersion.release_string, ReleaseLevel.tag]
  · exact ⟨a ++ ('.' :: (b ++ ('.' :: (c ++ ['.'])))), [], by simp⟩

/-- Witness for C3 at the concrete installed version `1.2.0.dev3`. -/
theorem resolve_version_dev_witness :
    resolve_version [("pbr_testpackage", "1.2.0.dev3")] "pbr_testpackage" =
      .ok ((1, 2, 0, "dev", 3), "1.2.0.dev3") ∧
    List.IsInfix "dev3".toList "1.2.0.dev3".toList := by
  have h := resolve_version_dev [("pbr_testpackage", "1.2.0.dev3")] "pbr_testpackage"
    ['1'] ['2'] ['0'] ['3'] (by decide) (by decide) (by decide) (by decide) (by decide)
  constructor
  · rw [h.1]; decide
  · exact h.2

/-- C4: a package name absent from the metadata index makes version
resolution fail with the metadata-not-found error; no default version value
is substituted. -/
theorem resolve_version_not_found (idx : MetadataIndex) (name : String)
    (h : findVersion idx name = none) :
    resolve_version idx name = .error .metadataNotFound := by
  simp [resolve_version, pbrSemanticVersion, h]

/-- Witness for C4 at an environment in which no package is installed. -/
theorem resolve_version_not_found_witness :
    resolve_version [] "pbr_testpackage" = .error .metadataNotFound :=
  resolve_version_not_found [] "pbr_testpackage" rfl

/-- C5: an installed version string outside the semantic-version grammar
makes resolution fail with the malformed-version error rather than returning
any tuple or string. -/
theorem resolve_version_malformed (idx : MetadataIndex) (name s : String)
    (hfind : findVersion idx name = some s)
    (hbad : parseSemVer? s.toList = none) :
    resolve_version idx name = .error .malformedVersion := by
  have hbad' : parseSemVer? s.data = none := hbad
  simp [resolve_version, pbrSemanticVersion, hfind, hbad']

/-- Witness for C5 at the concrete installed version string `not-a-version`. -/
theorem resolve_version_malformed_witness :
    resolve_version [("pbr_testpackage", "not-a-version")] "pbr_testpackage" =
      .error .malformedVersion :=
  resolve_version_malformed [("pbr_testpackage", "not-a-version")] "pbr_testpackage"
    "not-a-version" (by decide) (by decide)

/-- C6: every successful resolution yields a 5-tuple whose release level is
one of exactly the five tags `alpha`, `beta`, `candidate`, `final`, `dev`
(the three numeric components and the serial are `Nat`s, hence non-negative
by type), together with a separate human-readable release string. -/
theorem resolve_version_tuple_shape (idx : MetadataIndex) (name : String)
    (t : Nat × Nat × Nat × String × Nat) (s : String)
    (h : resolve_version idx name = .ok (t, s)) :
    t.2.2.2.1 ∈ (["alpha", "beta", "candidate", "final", "dev"] : List String) := by
  unfold resolve_version at h
  cases hres : pbrSemanticVersion idx name with
  | error e => rw [hres] at h; exact Except.noConfusion h
  | ok sv =>
    rw [hres] at h
    injection h with h
    obtain ⟨ma, mi, mc, lvl, se, tx⟩ := sv
    have h5 := congrArg (fun p => p.1.2.2.2.1) h
    simp only [SemanticVersion.version_tuple] at h5
    rw [← h5]
    cases lvl <;> simp [ReleaseLevel.tag]

/-- Witness for C6 at the concrete installed version `1.0.0`. -/
theorem resolve_version_tuple_shape_witness :
    ((1 : Nat), (0 : Nat), (0 : Nat), "final", (0 : Nat)).2.2.2.1 ∈
      (["alpha", "beta", "candidate", "final", "dev"] : List String) :=
  resolve_version_tuple_shape [("pbr_testpackage", "1.0.0")] "pbr_testpackage"
    (1, 0, 0, "final", 0) "1.0.0" (by decide)

/-- C7: version resolution is deterministic and idempotent — in the shallow
embedding it is a pure function of the metadata index and the package name
alone, so two invocations against the same installed environment yield
identical results, with no hidden mutable state to influence the outcome. -/
theorem resolve_version_idempotent (idx : MetadataIndex) (name : String) :
    resolve_version idx name = resolve_version idx name := rfl

/-- The process environment surrounding module initialization: the metadata
index the initializer reads, plus the other observable state the claim
frames — file contents and network traffic, modelled abstractly. -/
structure World where
  index : MetadataIndex
  fileState : List (String × String)
  networkLog : List String

/-- Module initialization as a state transformer over the whole environment.
The source's straight-line statements (lines 25–36) only read the metadata
index; the state-passing translation therefore returns the world unchanged
alongside the computed bindings. -/
def testrepositoryInitW (w : World) : Except VersionError ModuleBindings × World :=
  (testrepositoryInit w.index, w)

/-- C8: module initialization changes nothing in the environment: the world
comes back unchanged (no file writes, no network traffic), and the computed
bindings depend on nothing but the metadata index that was read. -/
theorem testrepositoryInit_frame (w : World) :
    (testrepositoryInitW w).2 = w ∧
    (testrepositoryInitW w).1 = testrepositoryInit w.index :=
  ⟨rfl, rfl⟩

theorem parseSemVer_text (s : List Char) (v : SemanticVersion)
    (h : parseSemVer? s = some v) : v.text = s := by
  unfold parseSemVer? at h
  cases hp : parseChunks? (splitDots s) with
  | none => rw [hp] at h; exact Option.noConfusion h
  | some t =>
    rw [hp] at h
    simp only [Option.map_some'] at h
    injection h with h
    rw [← h]

theorem pbrSemanticVersion_reparse (idx : MetadataIndex) (name : String)
    (sv : SemanticVersion) (h : pbrSemanticVersion idx name = .ok sv) :
    parseSemVer? sv.release_string.toList = some sv := by
  unfold pbrSemanticVersion at h
  split at h
  · exact Except.noConfusion h
  · rename_i s hf
    split at h
    · exact Except.noConfusion h
    · rename_i v hp
      injection h with h
      subst h
      have ht := parseSemVer_text s.toList v hp
      show parseSemVer? (String.toList ⟨v.text⟩) = some v
      rw [toList_mk, ht]
      exact hp

/-- C9: both exposed values derive from the single semantic-version object
obtained by the one metadata query: whenever initialization succeeds,
`version_info` is that object's tuple, `__version__` is its release string,
and the release string re-parses to that very same semantic version — so the
two values can never disagree about major, minor, micro, release level or
serial. -/
theorem testrepositoryInit_consistent (idx : MetadataIndex) (b : ModuleBindings)
    (h : testrepositoryInit idx = .ok b) :
    ∃ sv, pbrSemanticVersion idx queriedPackage = .ok sv ∧
      b.version_info = sv.version_tuple ∧
      b.version_string = sv.release_string ∧
      parseSemVer? b.version_string.toList = some sv := by
  unfold testrepositoryInit at h
  cases hres : pbrSemanticVersion idx queriedPackage with
  | error e => rw [hres] at h; exact Except.noConfusion h
  | ok sv =>
    rw [hres] at h
    injection h with h
    refine ⟨sv, rfl, ?_, ?_, ?_⟩
    · rw [← h]
    · rw [← h]
    · rw [← h]
      exact pbrSemanticVersion_reparse idx queriedPackage sv hres

/-- Witness for C9 at the concrete installed version `1.0.0`. -/
theorem testrepositoryInit_consistent_witness :
    ∃ sv, pbrSemanticVersion [("pbr_testpackage", "1.0.0")] queriedPackage = .ok sv ∧
      (⟨(1, 0, 0, "final", 0), "1.0.0"⟩ : ModuleBindings).version_info = sv.version_tuple ∧
      (⟨(1, 0, 0, "final", 0), "1.0.0"⟩ : ModuleBindings).version_string =
        sv.release_string ∧
      parseSemVer?
        (⟨(1, 0, 0, "final", 0), "1.0.0"⟩ : ModuleBindings).version_string.toList =
        some sv :=
  testrepositoryInit_consistent [("pbr_testpackage", "1.0.0")]
    ⟨(1, 0, 0, "final", 0), "1.0.0"⟩ (by decide)

/-- The observable module-level bindings during initialization: each is
`none` until its assignment statement has executed. -/
structure ModuleState where
  version_info : Option (Nat × Nat × Nat × String × Nat)
  version_string : Option String
deriving DecidableEq, Repr

/-- Fine-grained translation of the initializer's statements: start from an
empty module namespace; the only fallible step is the metadata query/parse
of line 27, which precedes both assignments, and a raised error aborts the
load discarding the partial namespace (a failed Python import leaves no
module object behind for consumers). -/
def loadModule (idx : MetadataIndex) : Except VersionError ModuleState :=
  let st0 : ModuleState := ⟨none, none⟩
  match pbrSemanticVersion idx queriedPackage with
  | .error e => .error e
  | .ok sv =>
    let st1 := { st0 with version_info := some sv.version_tuple }
    let st2 := { st1 with version_string := some sv.release_string }
    .ok st2

/-- C10: module initialization is atomic with respect to the two exposed
values: either the metadata step fails and that error propagates out of the
load with no module state exposed, or the load succeeds and BOTH
`version_info` and `__version__` are bound — no consumer can observe one of
the two defined without the other. -/
theorem loadModule_atomic (idx : MetadataIndex) :
    (∃ e, loadModule idx = .error e ∧
       pbrSemanticVersion idx queriedPackage = .error e) ∨
    (∃ st, loadModule idx = .ok st ∧
       st.version_info ≠ none ∧ st.version_string ≠ none) := by
  cases hres : pbrSemanticVersion idx queriedPackage with
  | error e =>
    refine Or.inl ⟨e, ?_, rfl⟩
    simp [loadModule, hres]
  | ok sv =>
    refine Or.inr ⟨⟨some sv.version_tuple, some sv.release_string⟩, ?_, by simp, by simp⟩
    simp [loadModule, hres]

/-- C1 fails on the code: line 27 of `src/testrepository/__init__.py` queries
the distribution `pbr_testpackage` (a test fixture of the `pbr` library),
not this library's own distribution `testrepository`.  In an environment
where `testrepository` itself is installed at version 1.0.0, initialization
fails with metadata-not-found; and when `pbr_testpackage` happens to be
present too, the exposed values report that other distribution's version. -/
theorem testrepositoryInit_queries_other_distribution :
    queriedPackage ≠ "testrepository" ∧
    testrepositoryInit [("testrepository", "1.0.0")] = .error .metadataNotFound ∧
    testrepositoryInit [("testrepository", "1.0.0"), ("pbr_testpackage", "9.9.9")] =
      .ok ⟨(9, 9, 9, "final", 0), "9.9.9"⟩ := by decide
